import Mathlib

/-!
Shallow embedding of the photo-upload server (src/server.js).

The server keeps an in-memory Map from upload identifiers to progress
records, provisions a Google Drive folder per order, uploads each file of a
batch sequentially into that folder, and exposes a progress-poll endpoint.
Remote Drive outcomes and the temporary-file directory are modelled
explicitly: a DriveEnv records whether each remote call succeeds, and the
disk is the list of temporary file paths currently present.
-/

/-- The two values the record's status field takes in server.js
(the string literals "uploading" and "completed"). -/
inductive UploadStatus where
  | uploading
  | completed
  deriving DecidableEq, Repr

/-- A progress record as stored in the uploadProgress Map
(server.js lines 123-128): total, completed, folderLink, status. -/
structure ProgressRecord where
  total : Nat
  completed : Nat
  folderLink : Option String
  status : UploadStatus
  deriving DecidableEq, Repr

/-- A multer file object as seen by the handler: originalname, mimetype,
path (location of the temporary copy on disk) and size in bytes. -/
structure FileBlob where
  originalname : String
  mimetype : String
  path : String
  size : Nat
  deriving DecidableEq, Repr

/-- The body of one request to POST /api/upload-photos: the two form
fields and the ordered list of files multer collected. -/
structure UploadRequest where
  customerName : String
  orderNumber : String
  files : List FileBlob
  deriving DecidableEq, Repr

/-- The uploadProgress Map (server.js line 36), modelled as an
association list with Map.get / Map.set semantics. -/
abbrev Store := List (String × ProgressRecord)

/-- Map.get: the value stored under the first matching key, if any. -/
def storeGet : Store → String → Option ProgressRecord
  | [], _ => none
  | (k, v) :: rest, key => if k = key then some v else storeGet rest key

/-- Map.set: replace the binding of the key if present, append otherwise. -/
def storeSet : Store → String → ProgressRecord → Store
  | [], key, v => [(key, v)]
  | (k, w) :: rest, key, v =>
      if k = key then (key, v) :: rest else (k, w) :: storeSet rest key v

/-- One remote Google Drive API call issued by the server: either
drive.files.create (with the requested name, mimeType and parents) or
drive.permissions.create (with fileId, role and grantee type). -/
inductive DriveCall where
  | filesCreate (name : String) (mimeType : String) (parents : List String)
  | permissionsCreate (fileId : String) (role : String) (granteeType : String)
  deriving DecidableEq, Repr

/-- The outcome environment for remote Drive calls: whether the
folder-creation call succeeds, the id and webViewLink Drive assigns to the
created folder, whether the permission-grant call succeeds, and for each
file index the remote file id on success or none when that file's
drive.files.create call throws. -/
structure DriveEnv where
  createFolderOk : Bool
  folderId : String
  folderLink : String
  permissionOk : Bool
  uploadOutcome : Nat → Option String

/-- What createCustomerFolder returns on success (server.js lines 61-65):
the folder's id, name and webViewLink. -/
structure DriveFolder where
  id : String
  name : String
  link : String
  deriving DecidableEq, Repr

/-- Result of the folder-provisioning step together with the list of
remote calls it issued, in order. -/
structure FolderResult where
  result : Except String DriveFolder
  calls : List DriveCall
  deriving Repr

/-- The mimeType constant used for folder creation (server.js line 44). -/
def folderMimeType : String := "application/vnd.google-apps.folder"

/-- The folder name built at server.js line 40:
customerName-ORDER-orderNumber-timestamp. -/
def folderNameOf (customerName orderNumber : String) (now : Nat) : String :=
  customerName ++ "-ORDER-" ++ orderNumber ++ "-" ++ toString now

/-- createCustomerFolder (server.js lines 39-66): build the timestamped
folder name, issue drive.files.create, then drive.permissions.create with
role reader and type anyone, and return the folder's id, name and link.
A failing remote call raises, which propagates to the caller; no retry. -/
def createCustomerFolder (env : DriveEnv) (customerName orderNumber : String)
    (now : Nat) : FolderResult :=
  let folderName := folderNameOf customerName orderNumber now
  let createCall := DriveCall.filesCreate folderName folderMimeType []
  if env.createFolderOk then
    let permCall := DriveCall.permissionsCreate env.folderId "reader" "anyone"
    if env.permissionOk then
      { result := Except.ok
          { id := env.folderId, name := folderName, link := env.folderLink },
        calls := [createCall, permCall] }
    else
      { result := Except.error "Drive permission grant failed",
        calls := [createCall, permCall] }
  else
    { result := Except.error "Drive folder create failed",
      calls := [createCall] }

/-- What drive.files.create returns for a file upload: id and name. -/
structure RemoteFileRef where
  id : String
  name : String
  deriving DecidableEq, Repr

/-- Result of one uploadToDrive call: the remote ref or the raised error,
the disk contents afterwards, and the remote calls issued. -/
structure UploadFileResult where
  result : Except String RemoteFileRef
  disk : List String
  calls : List DriveCall
  deriving Repr

/-- uploadToDrive (server.js lines 69-90): issue drive.files.create with
the file's original name, mime type and the target folder as parent; on
success unlink the temporary file (fs.unlinkSync) and return the remote
id and name; on failure the error propagates and the temporary file is
left on disk. -/
def uploadToDrive (outcome : Option String) (file : FileBlob)
    (folderId : String) (disk : List String) : UploadFileResult :=
  let call := DriveCall.filesCreate file.originalname file.mimetype [folderId]
  match outcome with
  | some fileId =>
      { result := Except.ok { id := fileId, name := file.originalname },
        disk := disk.erase file.path,
        calls := [call] }
  | none =>
      { result := Except.error "Drive upload failed",
        disk := disk,
        calls := [call] }

/-- The evolving state produced by the per-file upload loop: the final
store, the store snapshot after each mutation (in order), the final disk
contents, and the remote calls issued. -/
structure LoopResult where
  store : Store
  trace : List Store
  disk : List String
  calls : List DriveCall

/-- The upload loop of server.js lines 140-152. For each file, in order:
call uploadToDrive; on success read the record back from the map, set
completed to i + 1 and store it; on failure log and continue with the
next file. A missing record would make the JS assignment throw inside the
same try, also swallowed, so the none case continues unchanged. -/
def uploadLoop (outcome : Nat → Option String) (uploadId folderId : String) :
    List FileBlob → Nat → Store → List String → LoopResult
  | [], _, store, disk => { store := store, trace := [], disk := disk, calls := [] }
  | f :: rest, i, store, disk =>
      let att := uploadToDrive (outcome i) f folderId disk
      match att.result with
      | Except.ok _ =>
          match storeGet store uploadId with
          | some p =>
              let storeNext := storeSet store uploadId { p with completed := i + 1 }
              let r := uploadLoop outcome uploadId folderId rest (i + 1) storeNext att.disk
              { store := r.store, trace := storeNext :: r.trace,
                disk := r.disk, calls := att.calls ++ r.calls }
          | none =>
              let r := uploadLoop outcome uploadId folderId rest (i + 1) store att.disk
              { store := r.store, trace := r.trace,
                disk := r.disk, calls := att.calls ++ r.calls }
      | Except.error _ =>
          let r := uploadLoop outcome uploadId folderId rest (i + 1) store att.disk
          { store := r.store, trace := r.trace,
            disk := r.disk, calls := att.calls ++ r.calls }

/-- The JSON bodies the server produces: the success body of the upload
endpoint, a one-field error body, the error-with-details body, and the
progress body (a full ProgressRecord). -/
inductive ResponseBody where
  | success (uploadId : String) (folderLink : String) (message : String)
  | jsonError (error : String)
  | jsonErrorDetails (error : String) (details : String)
  | progress (record : ProgressRecord)
  deriving DecidableEq, Repr

/-- An HTTP response: status code and JSON body. -/
structure HttpResponse where
  status : Nat
  body : ResponseBody
  deriving DecidableEq, Repr

/-- Everything observable about one handled POST /api/upload-photos
request: the response, the final store, the store snapshot after each
mutation (in order), the remote calls issued (in order), and the final
disk contents. -/
structure UploadOutcome where
  response : HttpResponse
  store : Store
  trace : List Store
  driveCalls : List DriveCall
  disk : List String

/-- The POST /api/upload-photos handler body (server.js lines 112-171),
run after multer has stored the files: reject an empty batch with 400;
otherwise create the progress record, provision the folder (500 with
error and details if that throws), run the upload loop, mark the record
completed, and answer 200 with uploadId, folderLink and the count
message. The uploadId is Date.now().toString(). -/
def handleUploadPhotos (env : DriveEnv) (req : UploadRequest) (now : Nat)
    (store0 : Store) (disk0 : List String) : UploadOutcome :=
  let uploadId := toString now
  if req.files.length = 0 then
    { response := { status := 400, body := ResponseBody.jsonError "No files uploaded" },
      store := store0, trace := [], driveCalls := [], disk := disk0 }
  else
    let rec0 : ProgressRecord :=
      { total := req.files.length, completed := 0, folderLink := none,
        status := UploadStatus.uploading }
    let s1 := storeSet store0 uploadId rec0
    let fr := createCustomerFolder env req.customerName req.orderNumber now
    match fr.result with
    | Except.error e =>
        { response :=
            { status := 500,
              body := ResponseBody.jsonErrorDetails "Upload failed" e },
          store := s1, trace := [s1], driveCalls := fr.calls, disk := disk0 }
    | Except.ok folder =>
        let s2 := match storeGet s1 uploadId with
          | some p => storeSet s1 uploadId { p with folderLink := some folder.link }
          | none => s1
        let lr := uploadLoop env.uploadOutcome uploadId folder.id req.files 0 s2 disk0
        let s3 := match storeGet lr.store uploadId with
          | some p => storeSet lr.store uploadId { p with status := UploadStatus.completed }
          | none => lr.store
        { response :=
            { status := 200,
              body := ResponseBody.success uploadId folder.link
                ("Successfully uploaded " ++ toString req.files.length ++ " photos") },
          store := s3,
          trace := [s1, s2] ++ lr.trace ++ [s3],
          driveCalls := fr.calls ++ lr.calls,
          disk := lr.disk }

/-- The multer per-file size ceiling (server.js line 108): 10 MiB. -/
def fileSizeLimit : Nat := 10 * 1024 * 1024

/-- The multer file-count ceiling (server.js line 112): up to 10 files. -/
def maxFileCount : Nat := 10

/-- Modelled from the spec: the enforcement of the configured multer
limits happens inside the multer dependency, which is not part of this
repository; server.js only configures the 10 MiB fileSize limit and the
10-file array bound. Per the spec, an oversized file is rejected with a
client error before the handler (and hence any remote call) runs. This
predicate says whether multer lets the batch through to the handler. -/
def multerAccepts (files : List FileBlob) : Bool :=
  decide (files.length ≤ maxFileCount) &&
    files.all (fun f => decide (f.size ≤ fileSizeLimit))

/-- Modelled from the spec: the full POST /api/upload-photos middleware
chain. When multer accepts the batch it has written every file's
temporary copy to disk and the handler runs; when a file exceeds the
limit multer aborts the request with a client error (HTTP 400, JSON
error body) before the handler runs, so no progress record is created
and no remote call is made. -/
def postUploadPhotos (env : DriveEnv) (req : UploadRequest) (now : Nat)
    (store0 : Store) (disk0 : List String) : UploadOutcome :=
  if multerAccepts req.files then
    handleUploadPhotos env req now store0 (disk0 ++ req.files.map (fun f => f.path))
  else
    { response := { status := 400, body := ResponseBody.jsonError "File too large" },
      store := store0, trace := [], driveCalls := [], disk := disk0 }

/-- The GET /api/upload-progress/:uploadId handler (server.js lines
174-180): look the id up in the map; 404 with an error body when absent,
200 with the stored record when present. The store is returned unchanged
to make explicit that the lookup does not mutate it. -/
def getUploadProgress (store : Store) (uploadId : String) :
    HttpResponse × Store :=
  match storeGet store uploadId with
  | none => ({ status := 404, body := ResponseBody.jsonError "Upload not found" }, store)
  | some p => ({ status := 200, body := ResponseBody.progress p }, store)

/-! ### Lemmas about the store -/

theorem storeGet_storeSet_self (s : Store) (k : String) (v : ProgressRecord) :
    storeGet (storeSet s k v) k = some v := by
  induction s with
  | nil => simp [storeSet, storeGet]
  | cons e rest ih =>
      by_cases h : e.1 = k
      · simp [storeSet, storeGet, h]
      · simp [storeSet, storeGet, h, ih]

theorem storeGet_storeSet_ne (s : Store) (k k' : String) (v : ProgressRecord)
    (h : k ≠ k') : storeGet (storeSet s k v) k' = storeGet s k' := by
  induction s with
  | nil => simp [storeSet, storeGet, h]
  | cons e rest ih =>
      by_cases he : e.1 = k
      · simp [storeSet, storeGet, he, h]
      · simp [storeSet, storeGet, he, ih]

/-- The record-level part of the spec invariant: completed never exceeds
total. -/
def recordInv (r : ProgressRecord) : Prop := r.completed ≤ r.total

instance (r : ProgressRecord) : Decidable (recordInv r) := by
  unfold recordInv; infer_instance

/-- The store-level invariant: every record held in the store satisfies
recordInv. -/
def StoreInv (s : Store) : Prop := ∀ e ∈ s, recordInv e.2

instance (s : Store) : Decidable (StoreInv s) := by
  unfold StoreInv; infer_instance

theorem StoreInv_get {s : Store} {k : String} {r : ProgressRecord}
    (hs : StoreInv s) (h : storeGet s k = some r) : recordInv r := by
  induction s with
  | nil => simp [storeGet] at h
  | cons e rest ih =>
      rw [storeGet] at h
      by_cases he : e.1 = k
      · rw [if_pos he] at h
        cases h
        exact hs e (by simp)
      · rw [if_neg he] at h
        exact ih (fun x hx => hs x (by simp [hx])) h

theorem StoreInv_storeSet {s : Store} {k : String} {v : ProgressRecord}
    (hs : StoreInv s) (hv : recordInv v) : StoreInv (storeSet s k v) := by
  induction s with
  | nil =>
      intro e he
      simp [storeSet] at he
      simp [he, hv]
  | cons x rest ih =>
      intro e he
      rw [storeSet] at he
      by_cases hx : x.1 = k
      · rw [if_pos hx] at he
        rcases List.mem_cons.mp he with h | h
        · simp [h, hv]
        · exact hs e (by simp [h])
      · rw [if_neg hx] at he
        rcases List.mem_cons.mp he with h | h
        · exact hs e (by simp [h])
        · exact ih (fun y hy => hs y (by simp [hy])) e h

/-! ### The index of the last successful upload -/

/-- The largest index k in the half-open range from i of length n with
(outcome k).isSome, if any: the last file whose remote upload succeeds
among files examined at indices i, i+1, ..., i+n-1. -/
def lastSuccessFrom (outcome : Nat → Option String) (i : Nat) : Nat → Option Nat
  | 0 => none
  | n + 1 =>
      match lastSuccessFrom outcome (i + 1) n with
      | some k => some k
      | none => if (outcome i).isSome then some i else none

/-- The largest k < n with (outcome k).isSome, if any. -/
def lastSuccessIndex (outcome : Nat → Option String) (n : Nat) : Option Nat :=
  lastSuccessFrom outcome 0 n

theorem lastSuccessFrom_all_some (outcome : Nat → Option String) :
    ∀ n i, (∀ k, i ≤ k → k < i + (n + 1) → (outcome k).isSome = true) →
      lastSuccessFrom outcome i (n + 1) = some (i + n) := by
  intro n
  induction n with
  | zero =>
      intro i h
      have hi : (outcome i).isSome = true := h i le_rfl (by omega)
      simp [lastSuccessFrom, hi]
  | succ m ih =>
      intro i h
      have hrec : lastSuccessFrom outcome (i + 1) (m + 1) = some (i + 1 + m) :=
        ih (i + 1) (fun k hk1 hk2 => h k (by omega) (by omega))
      rw [lastSuccessFrom, hrec]
      simp only []
      congr 1
      omega

theorem lastSuccessFrom_last_some (outcome : Nat → Option String) :
    ∀ n i, (outcome (i + n)).isSome = true →
      lastSuccessFrom outcome i (n + 1) = some (i + n) := by
  intro n
  induction n with
  | zero =>
      intro i h
      simp only [Nat.add_zero] at h
      simp [lastSuccessFrom, h]
  | succ m ih =>
      intro i h
      have heq : i + 1 + m = i + (m + 1) := by omega
      have hrec : lastSuccessFrom outcome (i + 1) (m + 1) = some (i + 1 + m) :=
        ih (i + 1) (by rw [heq]; exact h)
      rw [lastSuccessFrom, hrec]
      simp only []
      congr 1

theorem lastSuccessFrom_fail_last (outcome : Nat → Option String) :
    ∀ n i, outcome (i + n) = none →
      lastSuccessFrom outcome i (n + 1) = lastSuccessFrom outcome i n := by
  intro n
  induction n with
  | zero =>
      intro i h
      simp only [Nat.add_zero] at h
      simp [lastSuccessFrom, h]
  | succ m ih =>
      intro i h
      have heq : i + 1 + m = i + (m + 1) := by omega
      have hrec : lastSuccessFrom outcome (i + 1) (m + 1) = lastSuccessFrom outcome (i + 1) m :=
        ih (i + 1) (by rw [heq]; exact h)
      rw [lastSuccessFrom, hrec]
      rw [show lastSuccessFrom outcome i (m + 1) =
            match lastSuccessFrom outcome (i + 1) m with
            | some k => some k
            | none => if (outcome i).isSome then some i else none from rfl]

theorem lastSuccessFrom_none (outcome : Nat → Option String) :
    ∀ n i, lastSuccessFrom outcome i n = none →
      ∀ m, i ≤ m → m < i + n → outcome m = none := by
  intro n
  induction n with
  | zero => intro i _ m h1 h2; omega
  | succ p ih =>
      intro i h m h1 h2
      rw [lastSuccessFrom] at h
      rcases hrec : lastSuccessFrom outcome (i + 1) p with _ | k
      · rw [hrec] at h
        simp only [] at h
        by_cases hm : m = i
        · subst hm
          rcases ho : outcome m with _ | v
          · rfl
          · rw [ho] at h; simp at h
        · exact ih (i + 1) hrec m (by omega) (by omega)
      · rw [hrec] at h
        simp at h

theorem lastSuccessFrom_some_spec (outcome : Nat → Option String) :
    ∀ n i k, lastSuccessFrom outcome i n = some k →
      (outcome k).isSome = true ∧ i ≤ k ∧ k < i + n ∧
        ∀ m, k < m → m < i + n → outcome m = none := by
  intro n
  induction n with
  | zero => intro i k h; simp [lastSuccessFrom] at h
  | succ p ih =>
      intro i k h
      rw [lastSuccessFrom] at h
      rcases hrec : lastSuccessFrom outcome (i + 1) p with _ | k'
      · rw [hrec] at h
        simp only [] at h
        rcases ho : (outcome i).isSome with _ | _
        · rw [ho] at h; simp at h
        · rw [ho] at h
          simp only [if_true] at h
          cases h
          refine ⟨ho, le_rfl, by omega, ?_⟩
          intro m hm1 hm2
          exact lastSuccessFrom_none outcome p (i + 1) hrec m (by omega) (by omega)
      · rw [hrec] at h
        simp only [] at h
        cases h
        obtain ⟨h1, h2, h3, h4⟩ := ih (i + 1) k hrec
        exact ⟨h1, by omega, by omega, fun m hm1 hm2 => h4 m hm1 (by omega)⟩

/-! ### The upload loop: final record, statuses, invariant -/

theorem uploadLoop_store (outcome : Nat → Option String) (uploadId folderId : String) :
    ∀ (files : List FileBlob) (i : Nat) (store : Store) (disk : List String)
      (p : ProgressRecord), storeGet store uploadId = some p →
      storeGet (uploadLoop outcome uploadId folderId files i store disk).store uploadId =
        some { p with completed :=
          match lastSuccessFrom outcome i files.length with
          | some k => k + 1
          | none => p.completed } := by
  intro files
  induction files with
  | nil =>
      intro i store disk p hp
      simp [uploadLoop, lastSuccessFrom, hp]
  | cons f rest ih =>
      intro i store disk p hp
      rcases ho : outcome i with _ | fid
      · simp only [uploadLoop, uploadToDrive, ho]
        rw [ih (i + 1) store disk p hp]
        rw [List.length_cons, lastSuccessFrom]
        rcases hinner : lastSuccessFrom outcome (i + 1) rest.length with _ | k
        · simp [ho]
        · simp
      · simp only [uploadLoop, uploadToDrive, ho, hp]
        rw [ih (i + 1) _ _ { p with completed := i + 1 } (storeGet_storeSet_self _ _ _)]
        rw [List.length_cons, lastSuccessFrom]
        rcases hinner : lastSuccessFrom outcome (i + 1) rest.length with _ | k
        · simp [ho]
        · simp

/-- Two stores hold records with identical statuses under every key. -/
def sameStatuses (s t : Store) : Prop :=
  ∀ k, Option.map ProgressRecord.status (storeGet s k) =
    Option.map ProgressRecord.status (storeGet t k)

theorem sameStatuses_refl (s : Store) : sameStatuses s s := fun _ => rfl

theorem sameStatuses_trans {a b c : Store} (h1 : sameStatuses a b)
    (h2 : sameStatuses b c) : sameStatuses a c := fun k => (h1 k).trans (h2 k)

theorem sameStatuses_symm {a b : Store} (h : sameStatuses a b) : sameStatuses b a :=
  fun k => (h k).symm

theorem sameStatuses_storeSet {s : Store} {k : String} {p q : ProgressRecord}
    (hget : storeGet s k = some p) (hst : q.status = p.status) :
    sameStatuses s (storeSet s k q) := by
  intro k'
  by_cases hk : k = k'
  · subst hk
    rw [storeGet_storeSet_self, hget]
    simp [hst]
  · rw [storeGet_storeSet_ne _ _ _ _ hk]

theorem uploadLoop_statuses (outcome : Nat → Option String) (uploadId folderId : String) :
    ∀ (files : List FileBlob) (i : Nat) (store : Store) (disk : List String),
      sameStatuses store (uploadLoop outcome uploadId folderId files i store disk).store ∧
      ∀ t ∈ (uploadLoop outcome uploadId folderId files i store disk).trace,
        sameStatuses store t := by
  intro files
  induction files with
  | nil =>
      intro i store disk
      constructor
      · exact sameStatuses_refl store
      · intro t ht
        simp [uploadLoop] at ht
  | cons f rest ih =>
      intro i store disk
      rcases ho : outcome i with _ | fid
      · simp only [uploadLoop, uploadToDrive, ho]
        exact ih (i + 1) store disk
      · rcases hget : storeGet store uploadId with _ | p
        · simp only [uploadLoop, uploadToDrive, ho, hget]
          exact ih (i + 1) store (disk.erase f.path)
        · simp only [uploadLoop, uploadToDrive, ho, hget]
          have hsame : sameStatuses store (storeSet store uploadId { p with completed := i + 1 }) :=
            sameStatuses_storeSet hget rfl
          obtain ⟨h1, h2⟩ :=
            ih (i + 1) (storeSet store uploadId { p with completed := i + 1 }) (disk.erase f.path)
          constructor
          · exact sameStatuses_trans hsame h1
          · intro t ht
            rcases List.mem_cons.mp ht with h | h
            · subst h; exact hsame
            · exact sameStatuses_trans hsame (h2 t h)

theorem uploadLoop_inv (outcome : Nat → Option String) (uploadId folderId : String) :
    ∀ (files : List FileBlob) (i T : Nat) (store : Store) (disk : List String),
      StoreInv store →
      (∀ p, storeGet store uploadId = some p → p.total = T) →
      i + files.length ≤ T →
      StoreInv (uploadLoop outcome uploadId folderId files i store disk).store ∧
      ∀ t ∈ (uploadLoop outcome uploadId folderId files i store disk).trace, StoreInv t := by
  intro files
  induction files with
  | nil =>
      intro i T store disk hs _ _
      constructor
      · exact hs
      · intro t ht
        simp [uploadLoop] at ht
  | cons f rest ih =>
      intro i T store disk hs htot hle
      have hle' : i + 1 + rest.length ≤ T := by
        rw [List.length_cons] at hle
        omega
      rcases ho : outcome i with _ | fid
      · simp only [uploadLoop, uploadToDrive, ho]
        exact ih (i + 1) T store disk hs htot hle'
      · rcases hget : storeGet store uploadId with _ | p
        · simp only [uploadLoop, uploadToDrive, ho, hget]
          exact ih (i + 1) T store (disk.erase f.path) hs htot hle'
        · simp only [uploadLoop, uploadToDrive, ho, hget]
          have hpt : p.total = T := htot p hget
          have hrecInv : recordInv { p with completed := i + 1 } := by
            unfold recordInv
            show i + 1 ≤ p.total
            rw [List.length_cons] at hle
            omega
          have hs' : StoreInv (storeSet store uploadId { p with completed := i + 1 }) :=
            StoreInv_storeSet hs hrecInv
          have htot' : ∀ q,
              storeGet (storeSet store uploadId { p with completed := i + 1 }) uploadId = some q →
              q.total = T := by
            intro q hq
            rw [storeGet_storeSet_self] at hq
            cases hq
            exact hpt
          obtain ⟨h1, h2⟩ := ih (i + 1) T _ (disk.erase f.path) hs' htot' hle'
          constructor
          · exact h1
          · intro t ht
            rcases List.mem_cons.mp ht with h | h
            · subst h; exact hs'
            · exact h2 t h

/-! ### Status ordering and trace chains -/

/-- uploading comes before completed. -/
def statusRank : UploadStatus → Nat
  | UploadStatus.uploading => 0
  | UploadStatus.completed => 1

/-- The only allowed direction of status movement: uploading to
completed, never backward. -/
def statusLE (a b : UploadStatus) : Prop := statusRank a ≤ statusRank b

theorem statusLE_refl (a : UploadStatus) : statusLE a a := le_rfl

theorem statusLE_completed (a : UploadStatus) : statusLE a UploadStatus.completed := by
  cases a <;> simp [statusLE, statusRank]

/-- One step of store evolution is admissible when no key's status moves
backward: any record present before and after the step only keeps its
status or advances it. -/
def storeStepOk (s t : Store) : Prop :=
  ∀ k r r', storeGet s k = some r → storeGet t k = some r' → statusLE r.status r'.status

theorem storeStepOk_of_sameStatuses {s t : Store} (h : sameStatuses s t) :
    storeStepOk s t := by
  intro k r r' hr hr'
  have hk := h k
  rw [hr, hr'] at hk
  simp at hk
  rw [hk]
  exact statusLE_refl _

/-- Every consecutive pair of store states in the list is an admissible
step. -/
def chainOk : List Store → Prop
  | [] => True
  | [_] => True
  | s :: t :: rest => storeStepOk s t ∧ chainOk (t :: rest)

/-- The last element of a list of stores. -/
def lastOf : List Store → Option Store
  | [] => none
  | [s] => some s
  | _ :: t :: rest => lastOf (t :: rest)

theorem lastOf_append_single (l : List Store) (s : Store) :
    lastOf (l ++ [s]) = some s := by
  induction l with
  | nil => rfl
  | cons x rest ih =>
      cases rest with
      | nil => rfl
      | cons y t => simpa [lastOf, List.cons_append] using ih

theorem chainOk_of_base (base : Store) :
    ∀ l : List Store, (∀ t ∈ l, sameStatuses base t) → chainOk l := by
  intro l
  induction l with
  | nil => intro _; trivial
  | cons x rest ih =>
      intro h
      cases rest with
      | nil => trivial
      | cons y t =>
          refine ⟨?_, ih ?_⟩
          · exact storeStepOk_of_sameStatuses
              (sameStatuses_trans (sameStatuses_symm (h x (by simp))) (h y (by simp)))
          · intro u hu
            exact h u (by simp [hu])

theorem chainOk_snoc (s : Store) : ∀ l : List Store, chainOk l →
    (∀ t, lastOf l = some t → storeStepOk t s) → chainOk (l ++ [s]) := by
  intro l
  induction l with
  | nil => intro _ _; trivial
  | cons x rest ih =>
      intro hc hl
      cases rest with
      | nil => exact ⟨hl x rfl, trivial⟩
      | cons y t =>
          obtain ⟨h1, h2⟩ := hc
          exact ⟨h1, ih h2 (fun u hu => hl u hu)⟩

/-! ### Named intermediate states of one handled upload request -/

/-- The progress record as first stored (server.js lines 123-128). -/
def rec0Of (req : UploadRequest) : ProgressRecord :=
  { total := req.files.length, completed := 0, folderLink := none,
    status := UploadStatus.uploading }

/-- The record once the folder link is filled in (server.js lines 133-137). -/
def rec1Of (env : DriveEnv) (req : UploadRequest) : ProgressRecord :=
  { total := req.files.length, completed := 0, folderLink := some env.folderLink,
    status := UploadStatus.uploading }

/-- The store right after the record is created. -/
def s1Of (req : UploadRequest) (now : Nat) (store0 : Store) : Store :=
  storeSet store0 (toString now) (rec0Of req)

/-- The store right after the folder link is recorded. -/
def s2Of (env : DriveEnv) (req : UploadRequest) (now : Nat) (store0 : Store) : Store :=
  storeSet (s1Of req now store0) (toString now) (rec1Of env req)

/-- The upload loop as run by the handler on a provisioned folder. -/
def loopOf (env : DriveEnv) (req : UploadRequest) (now : Nat) (store0 : Store)
    (disk0 : List String) : LoopResult :=
  uploadLoop env.uploadOutcome (toString now) env.folderId req.files 0
    (s2Of env req now store0) (disk0 ++ req.files.map (fun f => f.path))

/-- The completed value the loop leaves behind: one past the index of the
last file whose upload succeeded, or 0 when none did. -/
def finalCompleted (env : DriveEnv) (n : Nat) : Nat :=
  match lastSuccessIndex env.uploadOutcome n with
  | some k => k + 1
  | none => 0

/-- The record after the final status update (server.js lines 155-158). -/
def recFinalOf (env : DriveEnv) (req : UploadRequest) : ProgressRecord :=
  { total := req.files.length, completed := finalCompleted env req.files.length,
    folderLink := some env.folderLink, status := UploadStatus.completed }

/-- The store at the end of a fully successful handler run. -/
def s3Of (env : DriveEnv) (req : UploadRequest) (now : Nat) (store0 : Store)
    (disk0 : List String) : Store :=
  storeSet (loopOf env req now store0 disk0).store (toString now) (recFinalOf env req)

theorem createCustomerFolder_ok (env : DriveEnv) (cn onum : String) (now : Nat)
    (h1 : env.createFolderOk = true) (h2 : env.permissionOk = true) :
    createCustomerFolder env cn onum now =
      { result := Except.ok
          { id := env.folderId, name := folderNameOf cn onum now, link := env.folderLink },
        calls := [DriveCall.filesCreate (folderNameOf cn onum now) folderMimeType [],
                  DriveCall.permissionsCreate env.folderId "reader" "anyone"] } := by
  simp [createCustomerFolder, h1, h2]

theorem createCustomerFolder_err (env : DriveEnv) (cn onum : String) (now : Nat)
    (h : env.createFolderOk = false ∨ env.permissionOk = false) :
    ∃ e, createCustomerFolder env cn onum now =
      { result := Except.error e,
        calls := DriveCall.filesCreate (folderNameOf cn onum now) folderMimeType [] ::
          (if env.createFolderOk then [DriveCall.permissionsCreate env.folderId "reader" "anyone"] else []) } := by
  rcases h with h | h
  · exact ⟨"Drive folder create failed", by simp [createCustomerFolder, h]⟩
  · rcases hc : env.createFolderOk with _ | _
    · exact ⟨"Drive folder create failed", by simp [createCustomerFolder, hc]⟩
    · exact ⟨"Drive permission grant failed", by simp [createCustomerFolder, hc, h]⟩

theorem postUploadPhotos_success_eq (env : DriveEnv) (req : UploadRequest) (now : Nat)
    (store0 : Store) (disk0 : List String)
    (hN : ¬ req.files.length = 0) (hacc : multerAccepts req.files = true)
    (hcf : env.createFolderOk = true) (hperm : env.permissionOk = true) :
    postUploadPhotos env req now store0 disk0 =
      { response :=
          { status := 200,
            body := ResponseBody.success (toString now) env.folderLink
              ("Successfully uploaded " ++ toString req.files.length ++ " photos") },
        store := s3Of env req now store0 disk0,
        trace := s1Of req now store0 :: s2Of env req now store0 ::
          ((loopOf env req now store0 disk0).trace ++ [s3Of env req now store0 disk0]),
        driveCalls :=
          DriveCall.filesCreate (folderNameOf req.customerName req.orderNumber now)
              folderMimeType [] ::
            DriveCall.permissionsCreate env.folderId "reader" "anyone" ::
            (loopOf env req now store0 disk0).calls,
        disk := (loopOf env req now store0 disk0).disk } := by
  have hup : storeGet
      (storeSet (storeSet store0 (toString now)
          { total := req.files.length, completed := 0, folderLink := none,
            status := UploadStatus.uploading })
        (toString now)
        { total := req.files.length, completed := 0, folderLink := some env.folderLink,
          status := UploadStatus.uploading })
      (toString now) =
      some { total := req.files.length, completed := 0,
             folderLink := some env.folderLink, status := UploadStatus.uploading } :=
    storeGet_storeSet_self _ _ _
  have hloop := uploadLoop_store env.uploadOutcome (toString now) env.folderId req.files 0 _
    (disk0 ++ req.files.map (fun f => f.path)) _ hup
  dsimp only [] at hloop
  unfold postUploadPhotos
  rw [hacc]
  rw [if_pos rfl]
  unfold handleUploadPhotos
  rw [if_neg hN]
  rw [createCustomerFolder_ok env req.customerName req.orderNumber now hcf hperm]
  dsimp only []
  rw [storeGet_storeSet_self]
  dsimp only []
  rw [hloop]
  dsimp only []
  unfold s3Of loopOf s2Of s1Of rec0Of rec1Of recFinalOf finalCompleted lastSuccessIndex
  rfl

theorem postUploadPhotos_reject_eq (env : DriveEnv) (req : UploadRequest) (now : Nat)
    (store0 : Store) (disk0 : List String) (h : multerAccepts req.files = false) :
    postUploadPhotos env req now store0 disk0 =
      { response := { status := 400, body := ResponseBody.jsonError "File too large" },
        store := store0, trace := [], driveCalls := [], disk := disk0 } := by
  unfold postUploadPhotos
  rw [h]
  rfl

theorem postUploadPhotos_empty_eq (env : DriveEnv) (req : UploadRequest) (now : Nat)
    (store0 : Store) (disk0 : List String)
    (hacc : multerAccepts req.files = true) (h : req.files.length = 0) :
    postUploadPhotos env req now store0 disk0 =
      { response := { status := 400, body := ResponseBody.jsonError "No files uploaded" },
        store := store0, trace := [], driveCalls := [], disk := disk0 } := by
  have hf : req.files = [] := List.length_eq_zero.mp h
  unfold postUploadPhotos
  rw [hacc, if_pos rfl]
  unfold handleUploadPhotos
  rw [if_pos h, hf]
  simp

theorem postUploadPhotos_provfail_eq (env : DriveEnv) (req : UploadRequest) (now : Nat)
    (store0 : Store) (disk0 : List String)
    (hN : ¬ req.files.length = 0) (hacc : multerAccepts req.files = true)
    (hfail : env.createFolderOk = false ∨ env.permissionOk = false) :
    ∃ e, postUploadPhotos env req now store0 disk0 =
      { response :=
          { status := 500, body := ResponseBody.jsonErrorDetails "Upload failed" e },
        store := s1Of req now store0, trace := [s1Of req now store0],
        driveCalls :=
          DriveCall.filesCreate (folderNameOf req.customerName req.orderNumber now)
              folderMimeType [] ::
            (if env.createFolderOk then
              [DriveCall.permissionsCreate env.folderId "reader" "anyone"] else []),
        disk := disk0 ++ req.files.map (fun f => f.path) } := by
  obtain ⟨e, he⟩ := createCustomerFolder_err env req.customerName req.orderNumber now hfail
  refine ⟨e, ?_⟩
  unfold postUploadPhotos
  rw [hacc, if_pos rfl]
  unfold handleUploadPhotos
  rw [if_neg hN, he]
  dsimp only []
  unfold s1Of rec0Of
  rfl

/-- Whether a remote call is a file upload: drive.files.create with a
parent folder; the folder-creation call passes no parents, so it is not
a file upload. -/
def isFileUploadCall : DriveCall → Bool
  | DriveCall.filesCreate _ _ parents => !parents.isEmpty
  | DriveCall.permissionsCreate _ _ _ => false

theorem storeStepOk_fresh_set (store0 : Store) (k : String) (v : ProgressRecord)
    (hfresh : storeGet store0 k = none) : storeStepOk store0 (storeSet store0 k v) := by
  intro k' r r' hr hr'
  by_cases hk : k = k'
  · subst hk
    rw [hfresh] at hr
    cases hr
  · rw [storeGet_storeSet_ne _ _ _ _ hk, hr] at hr'
    cases hr'
    exact statusLE_refl _

theorem lastOf_mem : ∀ (l : List Store) (t : Store), lastOf l = some t → t ∈ l := by
  intro l
  induction l with
  | nil => intro t h; cases h
  | cons x rest ih =>
      intro t h
      cases rest with
      | nil =>
          cases h
          simp
      | cons y tl =>
          have hm := ih t h
          simp [hm]

theorem storeStepOk_to_final (s2 t lrstore : Store) (uid : String) (rec : ProgressRecord)
    (hrec : rec.status = UploadStatus.completed)
    (ht : sameStatuses s2 t) (hl : sameStatuses s2 lrstore) :
    storeStepOk t (storeSet lrstore uid rec) := by
  intro k r r' hr hr'
  by_cases hk : uid = k
  · subst hk
    rw [storeGet_storeSet_self] at hr'
    cases hr'
    rw [hrec]
    exact statusLE_completed _
  · rw [storeGet_storeSet_ne _ _ _ _ hk] at hr'
    have h1 := ht k
    have h2 := hl k
    rw [hr] at h1
    rw [hr'] at h2
    have h3 := h1.symm.trans h2
    simp at h3
    rw [h3]
    exact statusLE_refl _

theorem finalCompleted_le (env : DriveEnv) (n : Nat) : finalCompleted env n ≤ n := by
  unfold finalCompleted
  rcases h : lastSuccessIndex env.uploadOutcome n with _ | k
  · dsimp only []
    omega
  · dsimp only []
    obtain ⟨_, _, h3, _⟩ := lastSuccessFrom_some_spec env.uploadOutcome n 0 k h
    omega

/-! ### Sample data for witnesses and counterexamples -/

/-- A sample environment in which every remote call succeeds. -/
def envOkSample : DriveEnv :=
  { createFolderOk := true, folderId := "folder-1", folderLink := "link-1",
    permissionOk := true, uploadOutcome := fun _ => some "file-1" }

/-- A sample environment in which the folder-creation call fails. -/
def envProvFail : DriveEnv :=
  { createFolderOk := false, folderId := "folder-1", folderLink := "link-1",
    permissionOk := true, uploadOutcome := fun _ => some "file-1" }

/-- A sample environment in which only the first file's upload fails. -/
def envFailFirst : DriveEnv :=
  { createFolderOk := true, folderId := "folder-1", folderLink := "link-1",
    permissionOk := true,
    uploadOutcome := fun i => if i = 0 then none else some "file-1" }

def sampleFileA : FileBlob :=
  { originalname := "a.jpg", mimetype := "image/jpeg", path := "tmp-a", size := 100 }

def sampleFileB : FileBlob :=
  { originalname := "b.jpg", mimetype := "image/jpeg", path := "tmp-b", size := 200 }

/-- A sample two-file batch. -/
def sampleReq2 : UploadRequest :=
  { customerName := "A", orderNumber := "1", files := [sampleFileA, sampleFileB] }

/-- A file just over the configured 10 MiB ceiling. -/
def bigFile : FileBlob :=
  { originalname := "big.jpg", mimetype := "image/jpeg", path := "tmp-big",
    size := 10 * 1024 * 1024 + 1 }

/-! ### The claims -/

/-- C9: createCustomerFolder builds the remote folder name as
customerName-ORDER-orderNumber-timestamp, issues the create-folder call
first and then the permission-grant call giving role reader to type
anyone, and returns the folder's id, name and shareable link; failure of
either remote call propagates as an error, and the call list is always
exactly the single attempt of each call in that order (no retry). -/
theorem c9_createCustomerFolder (env : DriveEnv) (cn onum : String) (now : Nat) :
    (env.createFolderOk = true → env.permissionOk = true →
      (createCustomerFolder env cn onum now).result =
        Except.ok { id := env.folderId,
                    name := cn ++ "-ORDER-" ++ onum ++ "-" ++ toString now,
                    link := env.folderLink } ∧
      (createCustomerFolder env cn onum now).calls =
        [DriveCall.filesCreate (cn ++ "-ORDER-" ++ onum ++ "-" ++ toString now)
           folderMimeType [],
         DriveCall.permissionsCreate env.folderId "reader" "anyone"]) ∧
    ((env.createFolderOk = false ∨ env.permissionOk = false) →
      ∃ e, (createCustomerFolder env cn onum now).result = Except.error e) ∧
    ((createCustomerFolder env cn onum now).calls =
        [DriveCall.filesCreate (cn ++ "-ORDER-" ++ onum ++ "-" ++ toString now)
           folderMimeType []] ∨
      (createCustomerFolder env cn onum now).calls =
        [DriveCall.filesCreate (cn ++ "-ORDER-" ++ onum ++ "-" ++ toString now)
           folderMimeType [],
         DriveCall.permissionsCreate env.folderId "reader" "anyone"]) := by
  refine ⟨?_, ?_, ?_⟩
  · intro h1 h2
    rw [createCustomerFolder_ok env cn onum now h1 h2]
    exact ⟨rfl, rfl⟩
  · intro h
    obtain ⟨e, he⟩ := createCustomerFolder_err env cn onum now h
    exact ⟨e, by rw [he]⟩
  · rcases h1 : env.createFolderOk with _ | _
    · left
      simp [createCustomerFolder, h1, folderNameOf]
    · right
      rcases h2 : env.permissionOk with _ | _
      · simp [createCustomerFolder, h1, h2, folderNameOf]
      · simp [createCustomerFolder, h1, h2, folderNameOf]

theorem c9_witness :
    (createCustomerFolder envOkSample "Alice" "42" 7).result =
      Except.ok { id := "folder-1", name := "Alice-ORDER-42-7", link := "link-1" } := by
  have h := ((c9_createCustomerFolder envOkSample "Alice" "42" 7).1 rfl rfl).1
  rw [h]
  exact congrArg Except.ok (by decide)

/-- C7: polling an unknown uploadId yields 404 with the error body
Upload not found; polling a known uploadId yields 200 with the stored
record; the lookup is pure and leaves the store unchanged. -/
theorem c7_progress_lookup (store : Store) (uploadId : String) :
    (getUploadProgress store uploadId).2 = store ∧
    (storeGet store uploadId = none →
      (getUploadProgress store uploadId).1 =
        { status := 404, body := ResponseBody.jsonError "Upload not found" }) ∧
    ∀ p, storeGet store uploadId = some p →
      (getUploadProgress store uploadId).1 =
        { status := 200, body := ResponseBody.progress p } := by
  refine ⟨?_, ?_, ?_⟩
  · rcases h : storeGet store uploadId with _ | p
    · unfold getUploadProgress
      rw [h]
    · unfold getUploadProgress
      rw [h]
  · intro h
    unfold getUploadProgress
    rw [h]
  · intro p h
    unfold getUploadProgress
    rw [h]

theorem c7_witness :
    (getUploadProgress [] "missing").1 =
      { status := 404, body := ResponseBody.jsonError "Upload not found" } ∧
    (getUploadProgress [] "missing").2 = ([] : Store) :=
  ⟨(c7_progress_lookup [] "missing").2.1 rfl, (c7_progress_lookup [] "missing").1⟩

/-- C8: on a successful remote upload, uploadToDrive deletes the local
temporary file and returns the remote ref; on a failed remote upload it
leaves the temporary file in place and the error propagates; the batch
loop swallows the failure and continues with the next file, issuing the
one remote call and writing nothing to the store. -/
theorem c8_uploader_temp_file (file : FileBlob) (folderId : String) (disk : List String) :
    (∀ fid, (uploadToDrive (some fid) file folderId disk).result =
        Except.ok { id := fid, name := file.originalname } ∧
      (uploadToDrive (some fid) file folderId disk).disk = disk.erase file.path) ∧
    ((uploadToDrive none file folderId disk).result = Except.error "Drive upload failed" ∧
      (uploadToDrive none file folderId disk).disk = disk) ∧
    (∀ (outcome : Nat → Option String) (uploadId : String) (i : Nat) (store : Store)
        (rest : List FileBlob), outcome i = none →
      (uploadLoop outcome uploadId folderId (file :: rest) i store disk).store =
        (uploadLoop outcome uploadId folderId rest (i + 1) store disk).store ∧
      (uploadLoop outcome uploadId folderId (file :: rest) i store disk).trace =
        (uploadLoop outcome uploadId folderId rest (i + 1) store disk).trace ∧
      (uploadLoop outcome uploadId folderId (file :: rest) i store disk).disk =
        (uploadLoop outcome uploadId folderId rest (i + 1) store disk).disk ∧
      (uploadLoop outcome uploadId folderId (file :: rest) i store disk).calls =
        DriveCall.filesCreate file.originalname file.mimetype [folderId] ::
          (uploadLoop outcome uploadId folderId rest (i + 1) store disk).calls) := by
  refine ⟨?_, ?_, ?_⟩
  · intro fid
    exact ⟨rfl, rfl⟩
  · exact ⟨rfl, rfl⟩
  · intro outcome uploadId i store rest ho
    simp [uploadLoop, uploadToDrive, ho]

theorem c8_witness :
    (uploadToDrive (some "file-1") sampleFileA "folder-1" ["tmp-a", "tmp-b"]).disk = ["tmp-b"] ∧
    (uploadToDrive none sampleFileA "folder-1" ["tmp-a", "tmp-b"]).disk = ["tmp-a", "tmp-b"] ∧
    (uploadLoop (fun _ => none) "u" "folder-1" [sampleFileA] 0 [] ["tmp-a", "tmp-b"]).calls =
      [DriveCall.filesCreate "a.jpg" "image/jpeg" ["folder-1"]] := by
  refine ⟨?_, ?_, ?_⟩
  · have h := ((c8_uploader_temp_file sampleFileA "folder-1" ["tmp-a", "tmp-b"]).1 "file-1").2
    rw [h]
    decide
  · exact (c8_uploader_temp_file sampleFileA "folder-1" ["tmp-a", "tmp-b"]).2.1.2
  · have h := ((c8_uploader_temp_file sampleFileA "folder-1" ["tmp-a", "tmp-b"]).2.2
      (fun _ => none) "u" 0 [] [] rfl).2.2.2
    rw [h]
    decide

/-- C6: an empty file list yields HTTP 400 with a JSON error body, no
progress record is created, and no remote call is made. -/
theorem c6_empty_files (env : DriveEnv) (req : UploadRequest) (now : Nat)
    (store0 : Store) (disk0 : List String) (h : req.files = []) :
    (postUploadPhotos env req now store0 disk0).response =
      { status := 400, body := ResponseBody.jsonError "No files uploaded" } ∧
    (postUploadPhotos env req now store0 disk0).store = store0 ∧
    (postUploadPhotos env req now store0 disk0).trace = [] ∧
    (postUploadPhotos env req now store0 disk0).driveCalls = [] := by
  have hacc : multerAccepts req.files = true := by rw [h]; rfl
  have hlen : req.files.length = 0 := by rw [h]; rfl
  rw [postUploadPhotos_empty_eq env req now store0 disk0 hacc hlen]
  exact ⟨rfl, rfl, rfl, rfl⟩

theorem c6_witness :
    (postUploadPhotos envOkSample
        { customerName := "A", orderNumber := "1", files := [] } 3 [] []).response =
      { status := 400, body := ResponseBody.jsonError "No files uploaded" } ∧
    (postUploadPhotos envOkSample
        { customerName := "A", orderNumber := "1", files := [] } 3 [] []).store = [] := by
  have h := c6_empty_files envOkSample
    { customerName := "A", orderNumber := "1", files := [] } 3 [] [] rfl
  exact ⟨h.1, h.2.1⟩

/-- C2: a request containing a file over the configured 10 MiB limit is
rejected by the multer middleware before the handler runs: no remote
Drive call is made, the response is a 4xx client error (400) with a JSON
error body, and the store is untouched. -/
theorem c2_oversized_rejected (env : DriveEnv) (req : UploadRequest) (now : Nat)
    (store0 : Store) (disk0 : List String) (f : FileBlob)
    (hmem : f ∈ req.files) (hbig : fileSizeLimit < f.size) :
    (postUploadPhotos env req now store0 disk0).driveCalls = [] ∧
    (postUploadPhotos env req now store0 disk0).response.status = 400 ∧
    400 ≤ (postUploadPhotos env req now store0 disk0).response.status ∧
    (postUploadPhotos env req now store0 disk0).response.status < 500 ∧
    (∃ e, (postUploadPhotos env req now store0 disk0).response.body =
      ResponseBody.jsonError e) ∧
    (postUploadPhotos env req now store0 disk0).store = store0 := by
  have hacc : multerAccepts req.files = false := by
    unfold multerAccepts
    have hall : req.files.all (fun g => decide (g.size ≤ fileSizeLimit)) = false := by
      rcases h : req.files.all (fun g => decide (g.size ≤ fileSizeLimit)) with _ | _
      · rfl
      · exfalso
        have hf := List.all_eq_true.mp h f hmem
        simp at hf
        omega
    rw [hall, Bool.and_false]
  rw [postUploadPhotos_reject_eq env req now store0 disk0 hacc]
  exact ⟨rfl, rfl, (by decide : (400 : Nat) ≤ 400), (by decide : (400 : Nat) < 500),
    ⟨"File too large", rfl⟩, rfl⟩

theorem c2_witness :
    (postUploadPhotos envOkSample
        { customerName := "A", orderNumber := "1", files := [bigFile] } 3 [] []).driveCalls = [] ∧
    (postUploadPhotos envOkSample
        { customerName := "A", orderNumber := "1", files := [bigFile] } 3 [] []).response.status
      = 400 := by
  have h := c2_oversized_rejected envOkSample
    { customerName := "A", orderNumber := "1", files := [bigFile] } 3 [] [] bigFile
    (by simp) (by decide)
  exact ⟨h.1, h.2.1⟩

/-- C5: when folder provisioning (the create-folder call or the
permission grant) fails, the endpoint answers 500 with an error-details
body, no file upload is attempted (every remote call issued is a
provisioning call, none is a file upload), and the already-created
progress record stays in the uploading state in every store snapshot and
in the final store. -/
theorem c5_provisioning_failure (env : DriveEnv) (req : UploadRequest) (now : Nat)
    (store0 : Store) (disk0 : List String)
    (hN : ¬ req.files.length = 0) (hacc : multerAccepts req.files = true)
    (hfail : env.createFolderOk = false ∨ env.permissionOk = false) :
    (postUploadPhotos env req now store0 disk0).response.status = 500 ∧
    (∃ details, (postUploadPhotos env req now store0 disk0).response.body =
      ResponseBody.jsonErrorDetails "Upload failed" details) ∧
    ((postUploadPhotos env req now store0 disk0).driveCalls.all
      (fun c => !(isFileUploadCall c)) = true) ∧
    (∀ r, storeGet (postUploadPhotos env req now store0 disk0).store (toString now) = some r →
      r.status = UploadStatus.uploading) ∧
    (∀ s ∈ (postUploadPhotos env req now store0 disk0).trace,
      ∀ r, storeGet s (toString now) = some r → r.status = UploadStatus.uploading) := by
  obtain ⟨e, he⟩ := postUploadPhotos_provfail_eq env req now store0 disk0 hN hacc hfail
  rw [he]
  refine ⟨rfl, ⟨e, rfl⟩, ?_, ?_, ?_⟩
  · rcases hc : env.createFolderOk with _ | _
    · rfl
    · rfl
  · intro r hr
    unfold s1Of at hr
    rw [storeGet_storeSet_self] at hr
    cases hr
    rfl
  · intro s hs r hr
    simp only [List.mem_singleton] at hs
    subst hs
    unfold s1Of at hr
    rw [storeGet_storeSet_self] at hr
    cases hr
    rfl

theorem c5_witness :
    (postUploadPhotos envProvFail sampleReq2 3 [] []).response.status = 500 ∧
    (∀ r, storeGet (postUploadPhotos envProvFail sampleReq2 3 [] []).store "3" = some r →
      r.status = UploadStatus.uploading) :=
  ⟨(c5_provisioning_failure envProvFail sampleReq2 3 [] [] (by decide) rfl (Or.inl rfl)).1,
   (c5_provisioning_failure envProvFail sampleReq2 3 [] [] (by decide) rfl (Or.inl rfl)).2.2.2.1⟩

/-- C4: for a valid nonempty batch within the multer limits, when folder
provisioning and every per-file upload succeed, the final stored record
has total equal to the batch size, completed equal to the batch size and
status completed, and polling the progress endpoint returns that record
with HTTP 200. -/
theorem c4_all_success (env : DriveEnv) (req : UploadRequest) (now : Nat)
    (store0 : Store) (disk0 : List String)
    (hN : 0 < req.files.length) (hacc : multerAccepts req.files = true)
    (hcf : env.createFolderOk = true) (hperm : env.permissionOk = true)
    (hall : ∀ k, k < req.files.length → (env.uploadOutcome k).isSome = true) :
    storeGet (postUploadPhotos env req now store0 disk0).store (toString now) =
      some { total := req.files.length, completed := req.files.length,
             folderLink := some env.folderLink, status := UploadStatus.completed } ∧
    (getUploadProgress (postUploadPhotos env req now store0 disk0).store (toString now)).1 =
      { status := 200,
        body := ResponseBody.progress
          { total := req.files.length, completed := req.files.length,
            folderLink := some env.folderLink, status := UploadStatus.completed } } := by
  have hN' : ¬ req.files.length = 0 := by omega
  rw [postUploadPhotos_success_eq env req now store0 disk0 hN' hacc hcf hperm]
  have hlast : lastSuccessIndex env.uploadOutcome req.files.length =
      some (req.files.length - 1) := by
    obtain ⟨m, hm⟩ : ∃ m, req.files.length = m + 1 := ⟨req.files.length - 1, by omega⟩
    unfold lastSuccessIndex
    rw [hm]
    have h := lastSuccessFrom_all_some env.uploadOutcome m 0
      (fun k h1 h2 => hall k (by omega))
    rw [h]
    congr 1
    omega
  have hfc : finalCompleted env req.files.length = req.files.length := by
    unfold finalCompleted
    rw [hlast]
    dsimp only []
    omega
  have hget : storeGet (s3Of env req now store0 disk0) (toString now) =
      some (recFinalOf env req) := by
    unfold s3Of
    exact storeGet_storeSet_self _ _ _
  constructor
  · dsimp only []
    rw [hget]
    unfold recFinalOf
    rw [hfc]
  · dsimp only []
    unfold getUploadProgress
    rw [hget]
    unfold recFinalOf
    rw [hfc]

theorem c4_witness :
    storeGet (postUploadPhotos envOkSample sampleReq2 3 [] []).store "3" =
      some { total := 2, completed := 2, folderLink := some "link-1",
             status := UploadStatus.completed } := by
  have h := (c4_all_success envOkSample sampleReq2 3 [] [] (by decide) rfl rfl rfl
    (fun k hk => rfl)).1
  exact h

/-- C10: after the upload loop, completed equals one plus the zero-based
index of the last file whose upload succeeded (0 if none succeeded),
because each successful iteration assigns completed := i + 1 instead of
incrementing a success counter; the second and third conjuncts pin down
that lastSuccessIndex really is the index of the last success; the last
conjunct draws the consequence that whenever the final file's upload
succeeds the record shows completed = N even if earlier files failed. -/
theorem c10_completed_last_success (env : DriveEnv) (req : UploadRequest) (now : Nat)
    (store0 : Store) (disk0 : List String)
    (hN : 0 < req.files.length) (hacc : multerAccepts req.files = true)
    (hcf : env.createFolderOk = true) (hperm : env.permissionOk = true) :
    Option.map ProgressRecord.completed
        (storeGet (postUploadPhotos env req now store0 disk0).store (toString now)) =
      some (match lastSuccessIndex env.uploadOutcome req.files.length with
            | some k => k + 1
            | none => 0) ∧
    (∀ k, lastSuccessIndex env.uploadOutcome req.files.length = some k →
      (env.uploadOutcome k).isSome = true ∧ k < req.files.length ∧
      ∀ m, k < m → m < req.files.length → env.uploadOutcome m = none) ∧
    (lastSuccessIndex env.uploadOutcome req.files.length = none →
      ∀ m, m < req.files.length → env.uploadOutcome m = none) ∧
    ((env.uploadOutcome (req.files.length - 1)).isSome = true →
      Option.map ProgressRecord.completed
        (storeGet (postUploadPhotos env req now store0 disk0).store (toString now)) =
        some req.files.length) := by
  have hN' : ¬ req.files.length = 0 := by omega
  rw [postUploadPhotos_success_eq env req now store0 disk0 hN' hacc hcf hperm]
  have hget : storeGet (s3Of env req now store0 disk0) (toString now) =
      some (recFinalOf env req) := by
    unfold s3Of
    exact storeGet_storeSet_self _ _ _
  have hmain : Option.map ProgressRecord.completed
      (storeGet (s3Of env req now store0 disk0) (toString now)) =
      some (match lastSuccessIndex env.uploadOutcome req.files.length with
            | some k => k + 1
            | none => 0) := by
    rw [hget]
    unfold recFinalOf finalCompleted
    rfl
  refine ⟨?_, ?_, ?_, ?_⟩
  · dsimp only []
    exact hmain
  · intro k hk
    obtain ⟨h1, _, h3, h4⟩ :=
      lastSuccessFrom_some_spec env.uploadOutcome req.files.length 0 k hk
    exact ⟨h1, by omega, fun m hm1 hm2 => h4 m hm1 (by omega)⟩
  · intro hnone m hm
    exact lastSuccessFrom_none env.uploadOutcome req.files.length 0 hnone m (by omega) (by omega)
  · intro hlastok
    obtain ⟨m, hm⟩ : ∃ m, req.files.length = m + 1 := ⟨req.files.length - 1, by omega⟩
    have hl : lastSuccessIndex env.uploadOutcome req.files.length =
        some (req.files.length - 1) := by
      unfold lastSuccessIndex
      rw [hm]
      have hm' : (env.uploadOutcome (0 + m)).isSome = true := by
        rw [Nat.zero_add]
        rw [hm] at hlastok
        simpa using hlastok
      have h := lastSuccessFrom_last_some env.uploadOutcome m 0 hm'
      rw [h]
      congr 1
      omega
    have he : req.files.length - 1 + 1 = req.files.length := by omega
    dsimp only []
    rw [hmain, hl]
    dsimp only []
    rw [he]

theorem c10_witness :
    Option.map ProgressRecord.completed
        (storeGet (postUploadPhotos envFailFirst sampleReq2 3 [] []).store "3") =
      some sampleReq2.files.length := by
  have h := (c10_completed_last_success envFailFirst sampleReq2 3 [] []
    (by decide) rfl rfl rfl).2.2.2 rfl
  exact h

/-- C1 counterexample: in a two-file batch where exactly the first
file's upload fails and the second succeeds, the final record's
completed field is 2 (the full batch size), not N - 1 = 1 as the claim
requires: the completed := i + 1 assignment of the last successful
iteration hides the earlier failure. -/
theorem c1_counterexample :
    envFailFirst.uploadOutcome 0 = none ∧
    (envFailFirst.uploadOutcome 1).isSome = true ∧
    sampleReq2.files.length = 2 ∧
    Option.map ProgressRecord.completed
        (storeGet (postUploadPhotos envFailFirst sampleReq2 3 [] []).store "3") = some 2 ∧
    (2 : Nat) ≠ sampleReq2.files.length - 1 := by
  refine ⟨rfl, rfl, rfl, ?_, by decide⟩
  rfl

/-- C1 amended: with exactly one failing file (index j) in a batch of N,
the endpoint still answers 200 with the folder link; the failing
iteration writes nothing to the store (the loop step for a failed upload
leaves store and trace exactly those of the remaining files); but the
final completed is N - 1 only when the failing file is the last one —
otherwise the later successful iteration sets completed = N. -/
theorem c1_amended (env : DriveEnv) (req : UploadRequest) (now : Nat)
    (store0 : Store) (disk0 : List String) (j : Nat)
    (hN : 0 < req.files.length) (hacc : multerAccepts req.files = true)
    (hcf : env.createFolderOk = true) (hperm : env.permissionOk = true)
    (hj : j < req.files.length) (hfail : env.uploadOutcome j = none)
    (hsucc : ∀ k, k < req.files.length → k ≠ j → (env.uploadOutcome k).isSome = true) :
    (postUploadPhotos env req now store0 disk0).response =
      { status := 200,
        body := ResponseBody.success (toString now) env.folderLink
          ("Successfully uploaded " ++ toString req.files.length ++ " photos") } ∧
    Option.map ProgressRecord.completed
        (storeGet (postUploadPhotos env req now store0 disk0).store (toString now)) =
      some (if j + 1 = req.files.length then req.files.length - 1 else req.files.length) ∧
    (∀ (f : FileBlob) (rest : List FileBlob) (store : Store) (disk : List String)
        (fid : String),
      (uploadLoop env.uploadOutcome (toString now) fid (f :: rest) j store disk).store =
        (uploadLoop env.uploadOutcome (toString now) fid rest (j + 1) store disk).store ∧
      (uploadLoop env.uploadOutcome (toString now) fid (f :: rest) j store disk).trace =
        (uploadLoop env.uploadOutcome (toString now) fid rest (j + 1) store disk).trace) := by
  have hN' : ¬ req.files.length = 0 := by omega
  have hfc : finalCompleted env req.files.length =
      if j + 1 = req.files.length then req.files.length - 1 else req.files.length := by
    unfold finalCompleted lastSuccessIndex
    by_cases hlast : j + 1 = req.files.length
    · obtain ⟨m, hm⟩ : ∃ m, req.files.length = m + 1 := ⟨req.files.length - 1, by omega⟩
      have hjm : j = m := by omega
      rw [hm]
      have h1 : lastSuccessFrom env.uploadOutcome 0 (m + 1) =
          lastSuccessFrom env.uploadOutcome 0 m := by
        apply lastSuccessFrom_fail_last
        rw [Nat.zero_add, ← hjm]
        exact hfail
      rw [h1]
      rcases Nat.eq_zero_or_pos m with hm0 | hm0
      · subst hm0
        rw [if_pos (by omega)]
        rfl
      · obtain ⟨m', hm'⟩ : ∃ m', m = m' + 1 := ⟨m - 1, by omega⟩
        rw [hm']
        have h2 : lastSuccessFrom env.uploadOutcome 0 (m' + 1) = some (0 + m') := by
          apply lastSuccessFrom_all_some
          intro k hk1 hk2
          exact hsucc k (by omega) (by omega)
        rw [h2]
        dsimp only []
        rw [if_pos (by omega : j + 1 = m' + 1 + 1)]
        omega
    · obtain ⟨m, hm⟩ : ∃ m, req.files.length = m + 1 := ⟨req.files.length - 1, by omega⟩
      rw [hm]
      have h2 : lastSuccessFrom env.uploadOutcome 0 (m + 1) = some (0 + m) := by
        apply lastSuccessFrom_last_some
        rw [Nat.zero_add]
        exact hsucc m (by omega) (by omega)
      rw [h2]
      dsimp only []
      rw [if_neg (by omega : ¬ j + 1 = m + 1)]
      omega
  rw [postUploadPhotos_success_eq env req now store0 disk0 hN' hacc hcf hperm]
  have hget : storeGet (s3Of env req now store0 disk0) (toString now) =
      some (recFinalOf env req) := by
    unfold s3Of
    exact storeGet_storeSet_self _ _ _
  refine ⟨rfl, ?_, ?_⟩
  · dsimp only []
    rw [hget]
    unfold recFinalOf
    rw [hfc]
    rfl
  · intro f rest store disk fid
    simp [uploadLoop, uploadToDrive, hfail]

theorem c1_amended_witness :
    Option.map ProgressRecord.completed
        (storeGet (postUploadPhotos envFailFirst sampleReq2 3 [] []).store "3") =
      some 2 ∧
    (postUploadPhotos envFailFirst sampleReq2 3 [] []).response.status = 200 := by
  have h := c1_amended envFailFirst sampleReq2 3 [] [] 0 (by decide) rfl rfl rfl
    (by decide) rfl (fun k hk hne => by simp [envFailFirst, hne])
  refine ⟨?_, ?_⟩
  · have h2 := h.2.1
    exact h2
  · rw [h.1]

/-- C3: starting from any store satisfying the completed-le-total
invariant, with a fresh upload identifier, every store state reached
while the upload endpoint handles a request satisfies completed ≤ total
for every record it holds, consecutive states never move any record's
status backward (only uploading to completed), and the last state of the
trace is the final store. -/
theorem c3_progress_invariant (env : DriveEnv) (req : UploadRequest) (now : Nat)
    (store0 : Store) (disk0 : List String)
    (hinv : StoreInv store0) (hfresh : storeGet store0 (toString now) = none) :
    (∀ s ∈ store0 :: (postUploadPhotos env req now store0 disk0).trace, StoreInv s) ∧
    StoreInv (postUploadPhotos env req now store0 disk0).store ∧
    chainOk (store0 :: (postUploadPhotos env req now store0 disk0).trace) ∧
    lastOf (store0 :: (postUploadPhotos env req now store0 disk0).trace) =
      some (postUploadPhotos env req now store0 disk0).store := by
  rcases hacc : multerAccepts req.files with _ | _
  · rw [postUploadPhotos_reject_eq env req now store0 disk0 hacc]
    refine ⟨?_, hinv, trivial, rfl⟩
    intro s hs
    simp only [List.mem_singleton] at hs
    subst hs
    exact hinv
  · by_cases hlen : req.files.length = 0
    · rw [postUploadPhotos_empty_eq env req now store0 disk0 hacc hlen]
      refine ⟨?_, hinv, trivial, rfl⟩
      intro s hs
      simp only [List.mem_singleton] at hs
      subst hs
      exact hinv
    · by_cases hprov : env.createFolderOk = true ∧ env.permissionOk = true
      · -- success path
        rw [postUploadPhotos_success_eq env req now store0 disk0 hlen hacc hprov.1 hprov.2]
        have hs1inv : StoreInv (s1Of req now store0) :=
          StoreInv_storeSet hinv (Nat.zero_le _)
        have hs2inv : StoreInv (s2Of env req now store0) :=
          StoreInv_storeSet hs1inv (Nat.zero_le _)
        have hup : storeGet (s2Of env req now store0) (toString now) =
            some (rec1Of env req) := storeGet_storeSet_self _ _ _
        have htotal : ∀ p, storeGet (s2Of env req now store0) (toString now) = some p →
            p.total = req.files.length := by
          intro p hp
          rw [hup] at hp
          cases hp
          rfl
        have hloopinv : StoreInv (loopOf env req now store0 disk0).store ∧
            ∀ t ∈ (loopOf env req now store0 disk0).trace, StoreInv t := by
          unfold loopOf
          exact uploadLoop_inv env.uploadOutcome (toString now) env.folderId req.files 0
            req.files.length (s2Of env req now store0)
            (disk0 ++ req.files.map (fun f => f.path)) hs2inv htotal (by omega)
        have hloopstat : sameStatuses (s2Of env req now store0)
              (loopOf env req now store0 disk0).store ∧
            ∀ t ∈ (loopOf env req now store0 disk0).trace,
              sameStatuses (s2Of env req now store0) t := by
          unfold loopOf
          exact uploadLoop_statuses env.uploadOutcome (toString now) env.folderId req.files 0
            (s2Of env req now store0) (disk0 ++ req.files.map (fun f => f.path))
        have hs3inv : StoreInv (s3Of env req now store0 disk0) := by
          unfold s3Of
          exact StoreInv_storeSet hloopinv.1 (finalCompleted_le env req.files.length)
        have hget1 : storeGet (s1Of req now store0) (toString now) = some (rec0Of req) :=
          storeGet_storeSet_self _ _ _
        refine ⟨?_, hs3inv, ?_, ?_⟩
        · intro s hs
          simp only [List.mem_cons, List.mem_append, List.mem_singleton] at hs
          rcases hs with h | h | h | h | h | h
          · subst h; exact hinv
          · subst h; exact hs1inv
          · subst h; exact hs2inv
          · exact hloopinv.2 s h
          · subst h; exact hs3inv
          · exact absurd h (List.not_mem_nil s)
        · refine ⟨storeStepOk_fresh_set store0 _ _ hfresh, ?_, ?_⟩
          · exact storeStepOk_of_sameStatuses (sameStatuses_storeSet hget1 rfl)
          · have hbase : ∀ t ∈ s2Of env req now store0 :: (loopOf env req now store0 disk0).trace,
                sameStatuses (s2Of env req now store0) t := by
              intro t ht
              rcases List.mem_cons.mp ht with h | h
              · subst h; exact sameStatuses_refl _
              · exact hloopstat.2 t h
            have hchain : chainOk
                (s2Of env req now store0 :: (loopOf env req now store0 disk0).trace) :=
              chainOk_of_base (s2Of env req now store0) _ hbase
            have hstep : ∀ t, lastOf
                  (s2Of env req now store0 :: (loopOf env req now store0 disk0).trace) =
                  some t →
                storeStepOk t (s3Of env req now store0 disk0) := by
              intro t ht
              have hmem := lastOf_mem _ t ht
              have hsame : sameStatuses (s2Of env req now store0) t := hbase t hmem
              exact storeStepOk_to_final (s2Of env req now store0) t
                (loopOf env req now store0 disk0).store (toString now)
                (recFinalOf env req) rfl hsame hloopstat.1
            exact chainOk_snoc (s3Of env req now store0 disk0)
              (s2Of env req now store0 :: (loopOf env req now store0 disk0).trace)
              hchain hstep
        · exact lastOf_append_single
            (store0 :: s1Of req now store0 :: s2Of env req now store0 ::
              (loopOf env req now store0 disk0).trace)
            (s3Of env req now store0 disk0)
      · -- provisioning failure
        have hfail : env.createFolderOk = false ∨ env.permissionOk = false := by
          rcases hc : env.createFolderOk with _ | _
          · exact Or.inl rfl
          · rcases hp : env.permissionOk with _ | _
            · exact Or.inr rfl
            · exact absurd ⟨hc, hp⟩ hprov
        obtain ⟨e, he⟩ := postUploadPhotos_provfail_eq env req now store0 disk0 hlen hacc hfail
        rw [he]
        have hs1inv : StoreInv (s1Of req now store0) :=
          StoreInv_storeSet hinv (Nat.zero_le _)
        refine ⟨?_, hs1inv, ⟨storeStepOk_fresh_set store0 _ _ hfresh, trivial⟩, rfl⟩
        intro s hs
        rcases List.mem_cons.mp hs with h | h
        · subst h; exact hinv
        · simp only [List.mem_singleton] at h
          subst h
          exact hs1inv

theorem c3_witness :
    StoreInv (postUploadPhotos envOkSample sampleReq2 3 [] []).store ∧
    chainOk ([] :: (postUploadPhotos envOkSample sampleReq2 3 [] []).trace) := by
  have h := c3_progress_invariant envOkSample sampleReq2 3 [] []
    (fun e he => absurd he (List.not_mem_nil e)) rfl
  exact ⟨h.2.1, h.2.2.1⟩
